import Mathlib

/-!
# Verification of the per-route rate-limiting core (`src/http/src/ratelimiting/bucket.rs`)

This file shallowly embeds the rate-limiting bucket module of the repository:
the `Bucket` counter state and its operations (`time_remaining`, `try_reset`,
`update`), the bucket driver's loop (`BucketQueueTask::run`,
`handle_headers`, `lock_global`, `wait_if_needed`), and a cooperative
small-step transition system for the interaction of the drivers with the
global rate-limit gate.

Modelling conventions:
* `u64` values are `Nat` together with explicit `% 2^64` wrapping where the
  Rust code can wrap (`fetch_sub`); the uninitialised sentinel
  `u64::max_value()` is `UMAX = 2^64 - 1`.
* `Instant` and `Duration` are `Nat` milliseconds; `started_at.elapsed()` at
  time `now` is `now - startedAt` (time is monotone, so `startedAt ≤ now` in
  every real execution; `Nat` subtraction truncates below that).
* The `path` and `queue` fields of the Rust `Bucket` struct are modelled
  separately (the queue by the pop-result streams fed to the driver loop,
  the path by an abstract type with decidable equality), since the counter
  operations never touch them.
* Async code is modelled with the cooperative semantics the code is written
  against: a task yields only at suspension points (`.await` on a pending
  future); every synchronous stretch between suspension points is one atomic
  step.
-/

/-- `u64::max_value()`, the uninitialised sentinel used by `Bucket::new`. -/
def UMAX : Nat := 2 ^ 64 - 1

/-- Wrapping `u64` decrement, as performed by `remaining.fetch_sub(1, Relaxed)`:
`(n - 1) mod 2^64`, written additively so it is total on `Nat`. -/
def wrapSub1 (n : Nat) : Nat := (n + (2 ^ 64 - 1)) % 2 ^ 64

/-- The `TimeRemaining` enum of `bucket.rs`. -/
inductive TimeRemaining where
  | Finished
  | NotStarted
  | Some (d : Nat)
deriving DecidableEq, Repr

/-- The counter state of the `Bucket` struct of `bucket.rs`. `limit`,
`remaining` and `reset_after` are the `AtomicU64` fields; `started_at` is the
`Mutex<Option<Instant>>` field. The `path` and `queue` fields are modelled
separately (see the module comment). -/
structure Bucket where
  limit : Nat
  remaining : Nat
  reset_after : Nat
  started_at : Option Nat
deriving DecidableEq, Repr

namespace Bucket

/-- `Bucket::new`: every counter starts at the sentinel, `started_at` absent. -/
def new : Bucket :=
  { limit := UMAX, remaining := UMAX, reset_after := UMAX, started_at := none }

/-- `Bucket::time_remaining`, at current time `now` (ms). -/
def time_remaining (b : Bucket) (now : Nat) : TimeRemaining :=
  match b.started_at with
  | none => .NotStarted
  | some startedAt =>
    let elapsed := now - startedAt
    if b.reset_after < elapsed then .Finished
    else .Some (b.reset_after - elapsed)

/-- `Bucket::try_reset`, at current time `now`. Returns the mutated bucket
together with the returned boolean. -/
def try_reset (b : Bucket) (now : Nat) : Bucket × Bool :=
  if b.started_at.isNone then (b, false)
  else
    match b.time_remaining now with
    | .Finished => ({ b with remaining := b.limit, started_at := none }, true)
    | _ => (b, false)

/-- `Bucket::update`, at current time `now`. The `ratelimits` tuple is
`(limit, remaining, reset_after)` in the order of the Rust code. The local
`bucket_limit` is read before `started_at` is (re)initialised, exactly as in
the source. -/
def update (b : Bucket) (ratelimits : Option (Nat × Nat × Nat)) (now : Nat) : Bucket :=
  let bucket_limit := b.limit
  let b1 := if b.started_at.isNone then { b with started_at := some now } else b
  match ratelimits with
  | some (l, r, ra) =>
    let b2 :=
      if bucket_limit ≠ l then
        if bucket_limit = UMAX then { b1 with reset_after := ra, limit := l }
        else b1
      else b1
    { b2 with remaining := r }
  | none => { b1 with remaining := wrapSub1 b1.remaining }

/-- A sequence of `update` calls, each with its `ratelimits` argument and the
time at which it runs. Header application is sequential per bucket (one
driver owns the bucket), so a list of calls folded left models a bucket's
lifetime of updates. -/
def applyUpdates (b : Bucket) (calls : List (Option (Nat × Nat × Nat) × Nat)) : Bucket :=
  calls.foldl (fun acc c => acc.update c.1 c.2) b

end Bucket

/-- Once `limit` is not the sentinel, a single `update` never changes `limit`
or `reset_after`. -/
theorem update_frozen (b : Bucket) (r : Option (Nat × Nat × Nat)) (now : Nat)
    (h : b.limit ≠ UMAX) :
    (b.update r now).limit = b.limit ∧ (b.update r now).reset_after = b.reset_after := by
  rcases r with _ | ⟨l, rem, ra⟩
  · rcases hs : b.started_at with _ | s <;> simp [Bucket.update, hs]
  · rcases hs : b.started_at with _ | s <;> by_cases hl : b.limit = l <;>
      simp [Bucket.update, hs, h, hl]

/-- `update` can change `limit` only when the stored `limit` is the sentinel. -/
theorem update_limit_changes_only_from_sentinel (b : Bucket)
    (r : Option (Nat × Nat × Nat)) (now : Nat)
    (h : (b.update r now).limit ≠ b.limit) : b.limit = UMAX := by
  by_contra hne
  exact h (update_frozen b r now hne).1

/-- C4 (claim): for every bucket and every sequence of `update` calls, the
stored `limit` changes away from the sentinel `2^64-1` at most once; once it
is away from the sentinel, later calls leave `limit` and `reset_after`
untouched and a header call only stores `remaining`. -/
theorem limit_fixed_after_first_header (b : Bucket)
    (calls : List (Option (Nat × Nat × Nat) × Nat)) (h : b.limit ≠ UMAX) :
    (b.applyUpdates calls).limit = b.limit ∧
    (b.applyUpdates calls).reset_after = b.reset_after ∧
    ∀ l r ra now,
      (b.update (some (l, r, ra)) now).limit = b.limit ∧
      (b.update (some (l, r, ra)) now).reset_after = b.reset_after ∧
      (b.update (some (l, r, ra)) now).remaining = r := by
  refine ⟨?_, ?_, ?_⟩
  · induction calls generalizing b with
    | nil => rfl
    | cons c rest ih =>
      have hfz := update_frozen b c.1 c.2 h
      have hnext : (b.update c.1 c.2).limit ≠ UMAX := by rw [hfz.1]; exact h
      calc (b.applyUpdates (c :: rest)).limit
          = ((b.update c.1 c.2).applyUpdates rest).limit := rfl
        _ = (b.update c.1 c.2).limit := ih _ hnext
        _ = b.limit := hfz.1
  · induction calls generalizing b with
    | nil => rfl
    | cons c rest ih =>
      have hfz := update_frozen b c.1 c.2 h
      have hnext : (b.update c.1 c.2).limit ≠ UMAX := by rw [hfz.1]; exact h
      calc (b.applyUpdates (c :: rest)).reset_after
          = ((b.update c.1 c.2).applyUpdates rest).reset_after := rfl
        _ = (b.update c.1 c.2).reset_after := ih _ hnext
        _ = b.reset_after := hfz.2
  · intro l r ra now
    refine ⟨(update_frozen b _ now h).1, (update_frozen b _ now h).2, ?_⟩
    rcases hs : b.started_at with _ | s <;> by_cases hl : b.limit = l <;>
      simp [Bucket.update, hs, hl, h]

/-- C4 witness. -/
theorem limit_fixed_after_first_header_witness :
    ((Bucket.mk 5 4 1000 none).applyUpdates [(some (7, 2, 500), 3)]).limit = 5 :=
  (limit_fixed_after_first_header (Bucket.mk 5 4 1000 none) [(some (7, 2, 500), 3)]
    (by decide)).1

/-- C1 counterexample: on a fresh bucket (stored `limit` = sentinel), a
header whose `limit'` is itself the sentinel does NOT store `reset_after'`,
because the store is guarded by `bucket_limit != limit` before the sentinel
check. The claim says `reset_after` would be stored as `reset_after' = 9`;
the code leaves it at the sentinel. -/
theorem update_sentinel_header_keeps_reset_after :
    ¬ ((Bucket.new.update (some (UMAX, 7, 9)) 0).reset_after = 9) := by
  decide

/-- C1 (amended): for every call to `Bucket::update` with
`ratelimits = Some((limit', remaining', reset_after'))`: if `started_at` was
absent it is set to the current instant; if the stored `limit` still equals
the sentinel `2^64-1` AND `limit'` differs from the stored `limit`, then
`reset_after` is stored as `reset_after'` and `limit` as `limit'`; and in all
cases `remaining` is stored as `remaining'`. -/
theorem update_with_headers (b : Bucket) (l r ra now : Nat) :
    (b.started_at = none →
      (b.update (some (l, r, ra)) now).started_at = some now) ∧
    (b.limit = UMAX → l ≠ b.limit →
      (b.update (some (l, r, ra)) now).reset_after = ra ∧
      (b.update (some (l, r, ra)) now).limit = l) ∧
    (b.update (some (l, r, ra)) now).remaining = r := by
  refine ⟨?_, ?_, ?_⟩
  · intro hs
    by_cases hl : b.limit = l <;> by_cases hu : b.limit = UMAX <;>
      simp [Bucket.update, hs, hl, hu]
    split <;> rfl
  · intro hu hl
    have hne : UMAX ≠ l := fun hh => hl (by rw [hu, hh])
    rcases hs : b.started_at with _ | s <;>
      simp [Bucket.update, hs, hu, hne]
  · rcases hs : b.started_at with _ | s <;> by_cases hl : b.limit = l <;>
      simp [Bucket.update, hs, hl]

/-- C1 witness. -/
theorem update_with_headers_witness :
    ((Bucket.new.update (some (5, 4, 1000)) 17).started_at = some 17) ∧
    ((Bucket.new.update (some (5, 4, 1000)) 17).reset_after = 1000 ∧
     (Bucket.new.update (some (5, 4, 1000)) 17).limit = 5) ∧
    (Bucket.new.update (some (5, 4, 1000)) 17).remaining = 4 :=
  ⟨(update_with_headers Bucket.new 5 4 1000 17).1 rfl,
   (update_with_headers Bucket.new 5 4 1000 17).2.1 rfl (by decide),
   (update_with_headers Bucket.new 5 4 1000 17).2.2⟩

/-- C9: `update(None)` on a bucket whose `remaining` is `0` wraps the counter
to `2^64 - 1` under unsigned 64-bit arithmetic; it does not saturate at `0`. -/
theorem update_none_wraps_at_zero (b : Bucket) (now : Nat) (h : b.remaining = 0) :
    (b.update none now).remaining = 2 ^ 64 - 1 := by
  rcases hs : b.started_at with _ | s <;>
    simp [Bucket.update, hs, wrapSub1, h]

/-- C9 witness. -/
theorem update_none_wraps_at_zero_witness :
    ((Bucket.mk 5 0 1000 (some 3)).update none 40).remaining = 2 ^ 64 - 1 :=
  update_none_wraps_at_zero (Bucket.mk 5 0 1000 (some 3)) 40 rfl

/-- C7: `try_reset` returns `false` when `started_at` is absent; when
`started_at` is set and the elapsed time strictly exceeds `reset_after`
(`time_remaining` = `Finished`), it stores `remaining := limit`, clears
`started_at` and returns `true`; otherwise it returns `false` and changes
nothing. -/
theorem try_reset_spec (b : Bucket) (now : Nat) :
    (b.started_at = none → b.try_reset now = (b, false)) ∧
    (∀ s, b.started_at = some s → b.reset_after < now - s →
      b.try_reset now = ({ b with remaining := b.limit, started_at := none }, true)) ∧
    (∀ s, b.started_at = some s → ¬ (b.reset_after < now - s) →
      b.try_reset now = (b, false)) := by
  refine ⟨?_, ?_, ?_⟩
  · intro hs; simp [Bucket.try_reset, hs]
  · intro s hs hlt
    simp [Bucket.try_reset, Bucket.time_remaining, hs, hlt]
  · intro s hs hge
    simp [Bucket.try_reset, Bucket.time_remaining, hs, hge]

/-- C7 witness. -/
theorem try_reset_spec_witness :
    (Bucket.mk 5 0 1000 (some 3)).try_reset 2000
      = (Bucket.mk 5 5 1000 none, true) :=
  (try_reset_spec (Bucket.mk 5 0 1000 (some 3)) 2000).2.1 3 rfl (by decide)

/-- The `RatelimitHeaders` sum type, as consumed by `bucket.rs` (the variants
and fields matched in `BucketQueueTask::handle_headers`; the `Present`
variant's unused extra fields are elided by `..` in the source match and
here). -/
inductive RatelimitHeaders where
  | None
  | GlobalLimited (reset_after : Nat)
  | Present (global : Bool) (limit remaining reset_after : Nat)
deriving DecidableEq, Repr

/-- One observable action of a driver against the global gate, the timer and
its bucket, in program order. -/
inductive GateEffect where
  | setFlag
  | enterRegion
  | sleepMs (ms : Nat)
  | clearFlag
  | leaveRegion
  | updateBucket (ratelimits : Option (Nat × Nat × Nat))
deriving DecidableEq, Repr

namespace BucketQueueTask

/-- `BucketQueueTask::WAIT`, in milliseconds. -/
def WAIT_MS : Nat := 10000

/-- `BucketQueueTask::lock_global` as its sequence of effects:
`self.global.lock()` (set the flag), `self.global.0.lock().await` (enter the
region), `Delay::new(from_millis(wait))`, `self.global.unlock()` (clear the
flag), `drop(lock)` (leave the region). -/
def lock_global (wait : Nat) : List GateEffect :=
  [.setFlag, .enterRegion, .sleepMs wait, .clearFlag, .leaveRegion]

/-- `BucketQueueTask::handle_headers` as its sequence of effects: the match
on the header variant selects `ratelimits` (locking the global gate on the
way for `GlobalLimited`, and for `Present` with `global` set), the `None`
variant returns early, and afterwards `self.bucket.update(ratelimits)` runs. -/
def handle_headers (h : RatelimitHeaders) : List GateEffect :=
  match h with
  | .GlobalLimited ra => lock_global ra ++ [.updateBucket none]
  | .None => []
  | .Present g l r ra =>
    (if g then lock_global ra else []) ++ [.updateBucket (some (l, r, ra))]

/-- The result of the driver's wait on the reply channel
(`rx.timeout(Self::WAIT)` in `run`): the producer sent a value, or the
channel was closed (producer dropped its end), or the timeout elapsed. -/
inductive ReplyResult where
  | ok (v : Option RatelimitHeaders)
  | chanClosed
  | timedOut
deriving DecidableEq, Repr

/-- The driver's dispatch on the reply-wait result, from the `match` in
`BucketQueueTask::run`: `Ok(Some(headers))` runs `handle_headers`;
`Ok(None)` and `Err(_)` (closed or timed out) only log. -/
def processReply : ReplyResult → List GateEffect
  | .ok (some h) => handle_headers h
  | .ok none => []
  | .chanClosed => []
  | .timedOut => []

/-- Interpretation of a driver's effects over its bucket: only
`updateBucket` touches the bucket, via `Bucket.update`; gate and timer
effects leave it unchanged. (`now` is the time at which the update runs.) -/
def applyEffect (now : Nat) (b : Bucket) : GateEffect → Bucket
  | .updateBucket r => b.update r now
  | _ => b

/-- Fold of `applyEffect` over an effect list. -/
def applyEffects (now : Nat) (b : Bucket) (es : List GateEffect) : Bucket :=
  es.foldl (applyEffect now) b

/-- What `BucketQueueTask::wait_if_needed` did: the bucket afterwards,
the duration slept (if any), and whether `try_reset` was called. -/
structure WaitOutcome where
  bucket : Bucket
  slept : Option Nat
  calledTryReset : Bool
deriving DecidableEq, Repr

/-- `BucketQueueTask::wait_if_needed`, entered at time `now`: return at once
if `remaining > 0`; otherwise dispatch on `time_remaining()`: `Finished` →
`try_reset()` and return; `NotStarted` → return; `Some(dur)` → sleep `dur`
(so the clock advances to `now + dur`) and then `try_reset()`. -/
def wait_if_needed (b : Bucket) (now : Nat) : WaitOutcome :=
  if 0 < b.remaining then ⟨b, none, false⟩
  else
    match b.time_remaining now with
    | .Finished => ⟨(b.try_reset now).1, none, true⟩
    | .NotStarted => ⟨b, none, false⟩
    | .Some dur => ⟨(b.try_reset (now + dur)).1, some dur, true⟩

end BucketQueueTask

/-- C3: `wait_if_needed` returns immediately (no sleep, no `try_reset`, bucket
untouched) when `remaining > 0`; otherwise, with `started_at` absent
(`time_remaining()` = `NotStarted`) it returns without sleeping; with the
window elapsed (`Finished`) it calls `try_reset` and returns without
sleeping; and with time left in the window it sleeps the remaining duration
`reset_after - elapsed` and then calls `try_reset`. -/
theorem wait_if_needed_spec (b : Bucket) (now : Nat) :
    (0 < b.remaining → BucketQueueTask.wait_if_needed b now = ⟨b, none, false⟩) ∧
    (b.remaining = 0 → b.started_at = none →
      BucketQueueTask.wait_if_needed b now = ⟨b, none, false⟩) ∧
    (∀ s, b.remaining = 0 → b.started_at = some s → b.reset_after < now - s →
      BucketQueueTask.wait_if_needed b now = ⟨(b.try_reset now).1, none, true⟩) ∧
    (∀ s, b.remaining = 0 → b.started_at = some s → ¬ (b.reset_after < now - s) →
      BucketQueueTask.wait_if_needed b now =
        ⟨(b.try_reset (now + (b.reset_after - (now - s)))).1,
         some (b.reset_after - (now - s)), true⟩) := by
  refine ⟨?_, ?_, ?_, ?_⟩
  · intro h
    simp [BucketQueueTask.wait_if_needed, h]
  · intro h hs
    simp [BucketQueueTask.wait_if_needed, Bucket.time_remaining, h, hs]
  · intro s h hs hlt
    simp [BucketQueueTask.wait_if_needed, Bucket.time_remaining, h, hs, hlt]
  · intro s h hs hge
    simp [BucketQueueTask.wait_if_needed, Bucket.time_remaining, h, hs, hge]

/-- C3 witness. -/
theorem wait_if_needed_spec_witness :
    BucketQueueTask.wait_if_needed (Bucket.mk 5 4 1000 none) 0
      = ⟨Bucket.mk 5 4 1000 none, none, false⟩ :=
  (wait_if_needed_spec (Bucket.mk 5 4 1000 none) 0).1 (by decide)

/-- C5: a driver receiving `GlobalLimited{reset_after}` produces, in order:
set the global flag, enter the region, sleep `reset_after` ms, clear the
flag, leave the region, and then `bucket.update(None)` — which decrements
`remaining` by 1 (for any in-range, nonzero counter) and sets `started_at`
to the current instant if it was absent. -/
theorem handle_global_limited (ra : Nat) (b : Bucket) (now : Nat)
    (hpos : 0 < b.remaining) (hrange : b.remaining < 2 ^ 64) :
    BucketQueueTask.handle_headers (.GlobalLimited ra)
      = [.setFlag, .enterRegion, .sleepMs ra, .clearFlag, .leaveRegion,
         .updateBucket none] ∧
    (b.update none now).remaining = b.remaining - 1 ∧
    (b.started_at = none → (b.update none now).started_at = some now) := by
  refine ⟨rfl, ?_, ?_⟩
  · have hw : wrapSub1 b.remaining = b.remaining - 1 := by
      unfold wrapSub1
      have h1 : b.remaining + (2 ^ 64 - 1) = (b.remaining - 1) + 1 * 2 ^ 64 := by
        omega
      rw [h1, Nat.add_mul_mod_self_right]
      exact Nat.mod_eq_of_lt (by omega)
    rcases hs : b.started_at with _ | s <;>
      simp [Bucket.update, hs, hw]
  · intro hs
    simp [Bucket.update, hs]

/-- C5 witness. -/
theorem handle_global_limited_witness :
    BucketQueueTask.handle_headers (.GlobalLimited 500)
      = [.setFlag, .enterRegion, .sleepMs 500, .clearFlag, .leaveRegion,
         .updateBucket none] ∧
    ((Bucket.mk 5 4 1000 none).update none 7).remaining = 3 ∧
    ((Bucket.mk 5 4 1000 none).update none 7).started_at = some 7 :=
  ⟨(handle_global_limited 500 (Bucket.mk 5 4 1000 none) 7 (by decide) (by decide)).1,
   (handle_global_limited 500 (Bucket.mk 5 4 1000 none) 7 (by decide) (by decide)).2.1,
   (handle_global_limited 500 (Bucket.mk 5 4 1000 none) 7 (by decide) (by decide)).2.2 rfl⟩

/-- C6: when an admitted ticket's outcome is a header summary `None`, a
reply value of `None`, a dropped reply channel, or a reply timeout, the
driver performs no `updateBucket` effect, and all four bucket fields are
exactly as before admission. -/
theorem no_update_paths_frame (b : Bucket) (now : Nat) :
    BucketQueueTask.applyEffects now b
        (BucketQueueTask.processReply (.ok (some .None))) = b ∧
    BucketQueueTask.applyEffects now b
        (BucketQueueTask.processReply (.ok none)) = b ∧
    BucketQueueTask.applyEffects now b
        (BucketQueueTask.processReply .chanClosed) = b ∧
    BucketQueueTask.applyEffects now b
        (BucketQueueTask.processReply .timedOut) = b ∧
    ∀ r : Option (Nat × Nat × Nat),
      GateEffect.updateBucket r ∉
          BucketQueueTask.processReply (.ok (some .None)) ∧
      GateEffect.updateBucket r ∉ BucketQueueTask.processReply (.ok none) ∧
      GateEffect.updateBucket r ∉ BucketQueueTask.processReply .chanClosed ∧
      GateEffect.updateBucket r ∉ BucketQueueTask.processReply .timedOut := by
  refine ⟨rfl, rfl, rfl, rfl, ?_⟩
  intro r
  refine ⟨?_, ?_, ?_, ?_⟩ <;>
    simp [BucketQueueTask.processReply, BucketQueueTask.handle_headers]

/-- The registry (`buckets: Arc<Mutex<HashMap<Path, Arc<Bucket>>>>`),
modelled as a map from routes to bucket handles. `P` is the opaque route
type (`routing::Path`), `B` the bucket handle type. -/
def Registry (P : Type) (B : Type) := P → Option B

/-- `HashMap::remove(&path)`: the entry for `p` is gone, all others kept. -/
def Registry.remove {P B : Type} [DecidableEq P] (m : Registry P B) (p : P) :
    Registry P B :=
  fun q => if q = p then none else m q

namespace BucketQueueTask

/-- `BucketQueueTask::run`, driven by the stream of results of
`self.next()` (a `queue.pop(WAIT)` producing `Some(ticket)` or, after the
queue has been idle for `WAIT` = 10 s, `None`). The loop body never touches
the registry; on the first `None` the loop exits and the driver removes its
path from the registry (`self.buckets.lock().await.remove(&self.path)`).
`T` is the ticket type. Returns `none` while the given pop-result prefix has
not yet delivered an idle timeout (the loop is still running), and
`some registry'` once the driver has retired. -/
def run {P B T : Type} [DecidableEq P] (path : P) (pops : List (Option T))
    (reg : Registry P B) : Option (Registry P B) :=
  match pops with
  | [] => none
  | Option.none :: _ => some (reg.remove path)
  | some _ :: rest => run path rest reg

end BucketQueueTask

/-- C8: if the pop stream ever yields no ticket within `WAIT` (a `None` pop
result), the driver's loop terminates and the resulting registry has no
entry for the driver's route. -/
theorem run_retires_and_removes {P B T : Type} [DecidableEq P] (path : P)
    (pops : List (Option T)) (reg : Registry P B)
    (h : Option.none ∈ pops) :
    ∃ reg', BucketQueueTask.run path pops reg = some reg' ∧ reg' path = none := by
  induction pops with
  | nil => cases h
  | cons p rest ih =>
    rcases p with _ | t
    · exact ⟨reg.remove path, rfl, by simp [Registry.remove]⟩
    · rcases List.mem_cons.mp h with hh | hh
      · cases hh
      · exact ih hh

/-- C8 witness. -/
theorem run_retires_and_removes_witness :
    ∃ reg', BucketQueueTask.run (0 : Nat) [some (), Option.none]
        (fun _ => some ()) = some reg' ∧ reg' 0 = none :=
  run_retires_and_removes 0 [some (), Option.none] (fun _ => some ())
    (by simp)

namespace BucketQueueTask

/-- Result of a `oneshot` send (`futures_channel::oneshot::Sender::send`):
if the receiving end is still alive the value is transferred; if the
receiver was already dropped, `send` fails and the value is returned to the
caller — in `run` the result is discarded (`let _ = queue_tx.send(tx)`), so
a failed send drops the reply sender `tx`. -/
inductive SendResult (A : Type) where
  | sent
  | failed (returned : A)
deriving DecidableEq, Repr

/-- `queue_tx.send(tx)` where `queue_tx` is the popped ticket:
`producerAlive` says whether the producer still holds its receiving end.
Returns the send result together with whether the reply sender `tx` is still
held by anyone (`true` exactly when the transfer happened). -/
def ticketSend {A : Type} (producerAlive : Bool) (tx : A) : SendResult A × Bool :=
  if producerAlive then (.sent, true) else (.failed tx, false)

/-- What the admitted producer does with the reply sender it received. -/
inductive ProducerBehavior where
  | respondsWith (afterMs : Nat) (v : Option RatelimitHeaders)
  | dropsReplyAfter (afterMs : Nat)
  | never
deriving DecidableEq, Repr

/-- The driver's wait on its reply receiver
(`rx.map_err(..).timeout(Self::WAIT)` in `run`), returning the outcome and
the time the driver spent waiting. A `oneshot` receiver whose sender was
dropped resolves immediately with a cancellation error, so when the reply
sender was never delivered (`senderHeld = false`) the wait ends at once with
a closed channel. Otherwise the producer's behaviour decides, cut off at
`WAIT_MS`. -/
def replyWait (senderHeld : Bool) (p : ProducerBehavior) : ReplyResult × Nat :=
  if senderHeld then
    match p with
    | .respondsWith t v => if t ≤ WAIT_MS then (.ok v, t) else (.timedOut, WAIT_MS)
    | .dropsReplyAfter t => if t ≤ WAIT_MS then (.chanClosed, t) else (.timedOut, WAIT_MS)
    | .never => (.timedOut, WAIT_MS)
  else (.chanClosed, 0)

/-- One iteration of the `while let` body of `BucketQueueTask::run` after a
ticket has been popped (and after the global-gate check): send the reply
sender through the ticket, wait on the reply receiver, dispatch on the
outcome. Every outcome falls through to the next loop iteration, so the
iteration reports the effects performed, the time spent waiting for the
reply, and that the loop continues. -/
def iteration (producerAlive : Bool) (p : ProducerBehavior) :
    List GateEffect × Nat × Bool :=
  let (_, senderHeld) := ticketSend producerAlive ()
  let (res, waited) := replyWait senderHeld p
  (processReply res, waited, true)

end BucketQueueTask

/-- C10: when the producer dropped its ticket receiver before admission, the
driver's send of the reply channel fails (the reply sender is thereby
dropped and the reply channel closed), the reply wait resolves immediately
as a closed channel, the driver performs no bucket update, waits `0 < WAIT`
milliseconds rather than the full 10-second reply timeout, and the loop
continues with the next pop. -/
theorem dropped_producer_skips_wait (p : BucketQueueTask.ProducerBehavior) :
    (BucketQueueTask.ticketSend false ()).2 = false ∧
    BucketQueueTask.replyWait false p = (.chanClosed, 0) ∧
    BucketQueueTask.iteration false p = ([], 0, true) ∧
    (0 : Nat) < BucketQueueTask.WAIT_MS := by
  refine ⟨rfl, rfl, rfl, by decide⟩

/-!
## The global gate and ticket admission (C2)

A cooperative small-step system for the population of drivers around the
`GlobalLockPair` (modelled from the spec, see `GateState.flag` below). Each
driver is reduced to the program counter positions of `BucketQueueTask::run`
and `lock_global` that interact with the gate; every synchronous stretch
between suspension points is one step. Two facts about the source fix the
step granularity:
* in `run`, `if self.global.is_locked() { self.global.0.lock().await; }`
  followed by `queue_tx.send(tx)` has no suspension point between the flag
  check and the send when the flag is unset, and the region guard acquired
  in the branch is a temporary dropped before the send;
* in `lock_global`, `self.global.lock()` (the flag store) is followed
  immediately by the region acquisition, and `self.global.unlock()` by the
  guard drop, with no suspension point in between; an uncontended
  `Mutex::lock().await` resolves on first poll without yielding.
Consequently the only code that holds the global region across a suspension
point is `lock_global`'s penalty sleep, so the region is free exactly when
no driver is sleeping out a penalty.
-/

/-- Program-counter positions of one driver with respect to the global gate. -/
inductive DriverLoc where
  | idle
  | gateCheck
  | waitRegionSend
  | awaitReply
  | penaltyStart
  | waitRegionPenalty
  | sleeping
deriving DecidableEq, Repr

/-- Modelled from the spec: the shared `GlobalLockPair` (whose definition
lives outside `src/`, in the ratelimiting module root) is "a shared pair of
(a) a binary flag indicating globally limited and (b) a mutual-exclusion
region". `flag` is the binary flag; the region is represented by which
driver (if any) holds it across a suspension point, i.e. by the `sleeping`
location (see the section comment). -/
structure GateState where
  flag : Bool
  drivers : List DriverLoc
deriving DecidableEq, Repr

/-- The global region is free: no driver is sleeping out a penalty while
holding it. -/
def regionFree (s : GateState) : Prop := DriverLoc.sleeping ∉ s.drivers

instance (s : GateState) : Decidable (regionFree s) := by
  unfold regionFree; infer_instance

/-- Step labels: `sends i` marks driver `i` executing `queue_tx.send(tx)` —
the admission of a ticket (the popped ticket receives the reply channel). -/
inductive GateLabel where
  | sends (i : Nat)
  | internal
deriving DecidableEq, Repr

/-- One cooperative step of the driver population. Each constructor is one
synchronous stretch of `BucketQueueTask::run` / `lock_global`:
* `pops`: `self.next()` returns a ticket; the driver proceeds to the
  flag check.
* `sendNow`: `is_locked()` is false, so the driver sends the reply channel
  in the same stretch.
* `sendRegionFree` / `sendRegionBusy`: `is_locked()` is true; the driver
  polls `global.0.lock()`; if the region is free it acquires it, drops the
  temporary guard and sends in the same stretch, otherwise it suspends.
* `sendAcquire`: a driver suspended at the region in `run` resumes when the
  region is free, drops the guard and sends.
* `replyOther`: the reply wait ends with anything but a global-limited
  header; the driver returns to the queue pop.
* `replyGlobal`: the reply wait yields a global-limited header (or a
  `Present` header with `global` set); the driver enters `lock_global`.
* `penaltyFree` / `penaltyBusy`: `lock_global`'s first stretch: store
  `true` into the flag, then poll the region: acquire it and start the
  penalty sleep if free, else suspend with the flag already set.
* `penaltyAcquire`: a driver suspended at the region in `lock_global`
  resumes when the region is free and starts its penalty sleep.
* `wakes`: the penalty sleep ends: clear the flag and release the region in
  one stretch (`unlock()` then `drop(lock)`), returning to the loop.
-/
inductive GateStep : GateState → GateLabel → GateState → Prop where
  | pops (s : GateState) (i : Nat) :
      s.drivers[i]? = some .idle →
      GateStep s .internal ⟨s.flag, s.drivers.set i .gateCheck⟩
  | sendNow (s : GateState) (i : Nat) :
      s.drivers[i]? = some .gateCheck → s.flag = false →
      GateStep s (.sends i) ⟨s.flag, s.drivers.set i .awaitReply⟩
  | sendRegionFree (s : GateState) (i : Nat) :
      s.drivers[i]? = some .gateCheck → s.flag = true → regionFree s →
      GateStep s (.sends i) ⟨s.flag, s.drivers.set i .awaitReply⟩
  | sendRegionBusy (s : GateState) (i : Nat) :
      s.drivers[i]? = some .gateCheck → s.flag = true → ¬ regionFree s →
      GateStep s .internal ⟨s.flag, s.drivers.set i .waitRegionSend⟩
  | sendAcquire (s : GateState) (i : Nat) :
      s.drivers[i]? = some .waitRegionSend → regionFree s →
      GateStep s (.sends i) ⟨s.flag, s.drivers.set i .awaitReply⟩
  | replyOther (s : GateState) (i : Nat) :
      s.drivers[i]? = some .awaitReply →
      GateStep s .internal ⟨s.flag, s.drivers.set i .idle⟩
  | replyGlobal (s : GateState) (i : Nat) :
      s.drivers[i]? = some .awaitReply →
      GateStep s .internal ⟨s.flag, s.drivers.set i .penaltyStart⟩
  | penaltyFree (s : GateState) (i : Nat) :
      s.drivers[i]? = some .penaltyStart → regionFree s →
      GateStep s .internal ⟨true, s.drivers.set i .sleeping⟩
  | penaltyBusy (s : GateState) (i : Nat) :
      s.drivers[i]? = some .penaltyStart → ¬ regionFree s →
      GateStep s .internal ⟨true, s.drivers.set i .waitRegionPenalty⟩
  | penaltyAcquire (s : GateState) (i : Nat) :
      s.drivers[i]? = some .waitRegionPenalty → regionFree s →
      GateStep s .internal ⟨s.flag, s.drivers.set i .sleeping⟩
  | wakes (s : GateState) (i : Nat) :
      s.drivers[i]? = some .sleeping →
      GateStep s .internal ⟨false, s.drivers.set i .idle⟩

/-- The initial state: the flag is clear and every driver is at its queue
pop. -/
def initState (n : Nat) : GateState := ⟨false, List.replicate n .idle⟩

/-- States reachable from the initial state by driver steps. -/
inductive ReachableGate (n : Nat) : GateState → Prop where
  | start : ReachableGate n (initState n)
  | step {s l s'} : ReachableGate n s → GateStep s l s' → ReachableGate n s'

/-- The gate invariant: whenever the flag is set, some driver holds the
region for a penalty sleep. -/
def FlagImpliesHeld (s : GateState) : Prop :=
  s.flag = true → DriverLoc.sleeping ∈ s.drivers

theorem mem_set_of_getElem (l : List DriverLoc) (i : Nat) (x y : DriverLoc)
    (h : l[i]? = some x) : y ∈ l.set i y := by
  have hlen : i < l.length := by
    by_contra hge
    simp [List.getElem?_eq_none (Nat.le_of_not_lt hge)] at h
  exact List.mem_iff_getElem.mpr
    ⟨i, by simpa using hlen, by simp [List.getElem_set]⟩

theorem mem_set_of_mem_of_ne (l : List DriverLoc) (i : Nat) (x y a : DriverLoc)
    (hmem : a ∈ l) (h : l[i]? = some x) (hne : x ≠ a) : a ∈ l.set i y := by
  obtain ⟨j, hj, hja⟩ := List.mem_iff_getElem.mp hmem
  have hij : i ≠ j := by
    rintro rfl
    rw [List.getElem?_eq_getElem hj, Option.some_inj] at h
    exact hne (h.symm.trans hja)
  exact List.mem_iff_getElem.mpr
    ⟨j, by simpa using hj, by rw [List.getElem_set_of_ne hij]; exact hja⟩

theorem flag_inv_step {s s' : GateState} {l : GateLabel}
    (hs : FlagImpliesHeld s) (h : GateStep s l s') : FlagImpliesHeld s' := by
  cases h with
  | pops i hi =>
    intro hf
    exact mem_set_of_mem_of_ne _ i _ _ _ (hs hf) hi (by decide)
  | sendNow i hi hf0 =>
    intro hf; rw [hf0] at hf; cases hf
  | sendRegionFree i hi hf1 hfree =>
    exact absurd (hs hf1) hfree
  | sendRegionBusy i hi hf1 hbusy =>
    intro hf
    exact mem_set_of_mem_of_ne _ i _ _ _ (hs hf1) hi (by decide)
  | sendAcquire i hi hfree =>
    intro hf
    exact absurd (hs hf) hfree
  | replyOther i hi =>
    intro hf
    exact mem_set_of_mem_of_ne _ i _ _ _ (hs hf) hi (by decide)
  | replyGlobal i hi =>
    intro hf
    exact mem_set_of_mem_of_ne _ i _ _ _ (hs hf) hi (by decide)
  | penaltyFree i hi hfree =>
    intro _
    exact mem_set_of_getElem _ i _ _ hi
  | penaltyBusy i hi hbusy =>
    intro _
    exact mem_set_of_mem_of_ne _ i _ _ _ (not_not.mp hbusy) hi (by decide)
  | penaltyAcquire i hi hfree =>
    intro _
    exact mem_set_of_getElem _ i _ _ hi
  | wakes i hi =>
    intro hf; cases hf

theorem flag_inv_reachable {n : Nat} {s : GateState} (h : ReachableGate n s) :
    FlagImpliesHeld s := by
  induction h with
  | start => intro hf; cases hf
  | step _ hstep ih => exact flag_inv_step ih hstep

/-- C2: in any reachable state of the driver population, a ticket admission
(a driver sending the reply channel through a popped ticket) can only happen
while the global flag is clear: once the flag is asserted, no ticket on any
bucket is admitted until the flag is cleared. -/
theorem no_admission_while_flag_set {n : Nat} {s s' : GateState} {i : Nat}
    (hr : ReachableGate n s) (hstep : GateStep s (.sends i) s') :
    s.flag = false := by
  have hinv := flag_inv_reachable hr
  cases hstep with
  | sendNow i hi hf0 => exact hf0
  | sendRegionFree i hi hf1 hfree => exact absurd (hinv hf1) hfree
  | sendAcquire i hi hfree =>
    cases hf : s.flag with
    | false => rfl
    | true => exact absurd (hinv hf) hfree

/-- C2 witness. -/
theorem no_admission_while_flag_set_witness :
    (GateState.mk false ((initState 1).drivers.set 0 .gateCheck)).flag = false :=
  no_admission_while_flag_set (n := 1) (i := 0)
    (ReachableGate.step ReachableGate.start (GateStep.pops (initState 1) 0 rfl))
    (GateStep.sendNow _ 0 rfl rfl)
